import Mathlib

/-!
# Eventmaster gateway: gRPC server and form handlers

A shallow embedding of `grpc_server.go` (package `eventmaster`) and of
`ui_handlers.go` (package `main`), followed by the properties proved about them.

Conventions of the embedding.

* A Go function that returns `(value, error)` and whose value is read only when
  the error is nil returns `Except Error value`.
* Every call that leaves the handler (a metric, a log line, a store call, a
  message put on a stream, a write on the HTTP response) is appended to a trace,
  so "is invoked exactly once" and "is invoked zero times" are statements about
  that trace.
* The collaborators that are not part of the two files (the event store, the
  JSON codec of `encoding/json`, `time.Parse`, the stream, the templates) are
  parameters.
* The latency value handed to `Observe` is wall-clock time and is not recorded;
  the observation itself, with its label, is.
-/

namespace Eventmaster

/-! ## Errors (`github.com/pkg/errors`) -/

/-- An error value: either one produced by a collaborator, or the result of
`errors.Wrap(cause, msg)` / `errors.Wrapf(cause, format, ...)`. -/
inductive Error where
  | base (msg : String)
  | wrap (cause : Error) (msg : String)
  deriving DecidableEq, Repr

/-- The text of `err.Error()`: a wrapped error prints its message, a colon and
the text of its cause. -/
def Error.text : Error → String
  | .base msg => msg
  | .wrap cause msg => msg ++ ": " ++ cause.text

/-- The error directly below a wrapper (`Cause()` of the wrapper), if any. -/
def Error.cause? : Error → Option Error
  | .base _ => none
  | .wrap cause _ => some cause

/-! ## Data model of the gRPC server -/

/-- A Go byte slice. -/
abbrev Bytes := List Nat

/-- The bytes of the Go string literal of an empty JSON object, an opening and a
closing brace (ASCII 123 and 125). -/
def emptyObject : Bytes := [123, 125]

/-- The protobuf message `eventmaster.Event`. `Data` is `none` for a nil slice. -/
structure PEvent where
  EventId : String
  ParentEventId : String
  EventTime : Int
  DC : String
  TopicName : String
  TagSet : List String
  Host : String
  TargetHostSet : List String
  User : String
  Data : Option Bytes
  deriving DecidableEq, Repr

/-- The value handed to the store by `AddEvent`; `J` is the type of a decoded
JSON document (Go's `map[string]interface{}`). -/
structure UnaddedEvent (J : Type) where
  ParentEventID : String
  EventTime : Int
  DC : String
  TopicName : String
  Tags : List String
  Host : String
  TargetHosts : List String
  User : String
  Data : J

/-- An event as the store returns it. -/
structure Event (J : Type) where
  EventID : String
  ParentEventID : String
  EventTime : Int
  DCID : String
  TopicID : String
  Tags : List String
  Host : String
  TargetHosts : List String
  User : String
  Data : J

/-- The store's `Topic`. `AddTopic` and `UpdateTopic` leave `ID` at its zero value. -/
structure Topic (J : Type) where
  ID : String
  Name : String
  Schema : J

/-- The protobuf message `eventmaster.Topic`. -/
structure PTopic where
  Id : String
  TopicName : String
  DataSchema : Option Bytes
  deriving DecidableEq, Repr

/-- The protobuf message `eventmaster.UpdateTopicRequest`. -/
structure UpdateTopicRequest where
  OldName : String
  NewName : String
  DataSchema : Option Bytes
  deriving DecidableEq, Repr

/-- The protobuf message `eventmaster.DeleteTopicRequest`; the handler passes it
to the store unread. -/
structure DeleteTopicRequest where
  TopicName : String
  deriving DecidableEq, Repr

/-- The protobuf message `eventmaster.DC`. -/
structure PDC where
  ID : String
  DCName : String
  deriving DecidableEq, Repr

/-- The protobuf message `eventmaster.UpdateDCRequest`; the handler passes it to
the store unread. -/
structure UpdateDCRequest where
  OldName : String
  NewName : String
  deriving DecidableEq, Repr

/-- A datacenter as the store returns it. -/
structure DCRow where
  ID : String
  Name : String
  deriving DecidableEq, Repr

/-- The protobuf message `eventmaster.Query`; the handler passes it to the store
unread. -/
structure PQuery where
  Dc : List String
  Host : List String
  TopicName : List String
  StartEventTime : Int
  EndEventTime : Int
  deriving DecidableEq, Repr

/-- The protobuf message `eventmaster.TimeQuery`; the handler passes it to the
store unread. -/
structure TimeQuery where
  StartEventTime : Int
  EndEventTime : Int
  deriving DecidableEq, Repr

/-- The protobuf message `eventmaster.WriteResponse`. -/
structure WriteResponse where
  Id : String
  deriving DecidableEq, Repr

/-- The protobuf message `eventmaster.HealthcheckResponse`. -/
structure HealthcheckResponse where
  Response : String
  deriving DecidableEq, Repr

/-! ## Trace of the calls a handler makes -/

/-- One call that leaves the handler. -/
inductive Effect (J : Type) where
  /-- The call `grpcReqLatencies.WithLabelValues(method).Observe(..)`. -/
  | observe (method : String)
  /-- The call `grpcRespCounter.WithLabelValues(method, code).Inc()`. -/
  | inc (method : String) (code : String)
  /-- The call `fmt.Println(args...)`, each argument already rendered. -/
  | println (args : List String)
  | storeAddEvent (ev : UnaddedEvent J)
  | storeFindByID (id : String)
  | storeFind (q : PQuery)
  | storeFindIDs (q : TimeQuery)
  | storeAddTopic (t : Topic J)
  | storeUpdateTopic (oldName : String) (t : Topic J)
  | storeDeleteTopic (t : DeleteTopicRequest)
  | storeGetTopics
  | storeAddDC (d : PDC)
  | storeUpdateDC (t : UpdateDCRequest)
  | storeGetDCs
  /-- A message delivered on the `GetEvents` stream. -/
  | send (msg : PEvent)
  /-- A message delivered on the `GetEventIDs` stream. -/
  | sendID (id : String)

/-- The calls made so far, oldest first. -/
abbrev World (J : Type) := List (Effect J)

/-- How many times the counter labelled `(method, code)` was incremented. -/
def counterValue {J : Type} (w : World J) (method code : String) : Nat :=
  (w.filter (fun e => match e with
    | .inc m c => m == method && c == code
    | _ => false)).length

/-- How many latency observations labelled `method` were recorded. -/
def observations {J : Type} (w : World J) (method : String) : Nat :=
  (w.filter (fun e => match e with
    | .observe m => m == method
    | _ => false)).length

/-- The metric calls of a trace, in order, as `(kind, method, code)`; a latency
observation has kind `"observe"` and an empty code. -/
def metricsOf {J : Type} : World J → List (String × String × String)
  | [] => []
  | .observe m :: w => ("observe", m, "") :: metricsOf w
  | .inc m c :: w => ("inc", m, c) :: metricsOf w
  | _ :: w => metricsOf w

/-- Whether a call is a metric or a log line, as opposed to a store call or a
message on a stream. -/
def Effect.isInstrumentation {J : Type} : Effect J → Bool
  | .observe _ => true
  | .inc _ _ => true
  | .println _ => true
  | _ => false

/-- The outcome label of a handler that returns `(value, error)`: `"0"` when
the error is nil, `"1"` otherwise. -/
def codeOf {α : Type} : Except Error α → String
  | .ok _ => "0"
  | .error _ => "1"

/-- The outcome label of a handler that returns an error only. -/
def codeOfError : Option Error → String
  | none => "0"
  | some _ => "1"

/-- The store calls of a trace that change a topic, as `(key, new name)`; the key
is empty for `AddTopic`. -/
def topicCalls {J : Type} : World J → List (String × Topic J)
  | [] => []
  | .storeAddTopic t :: w => ("", t) :: topicCalls w
  | .storeUpdateTopic oldName t :: w => (oldName, t) :: topicCalls w
  | _ :: w => topicCalls w

/-- The store calls of a trace that create an event. -/
def addEventCalls {J : Type} : World J → List (UnaddedEvent J)
  | [] => []
  | .storeAddEvent ev :: w => ev :: addEventCalls w
  | _ :: w => addEventCalls w

/-- The messages delivered on the `GetEvents` stream, in order. -/
def sentOf {J : Type} : World J → List PEvent
  | [] => []
  | .send msg :: w => msg :: sentOf w
  | _ :: w => sentOf w

/-! ## Collaborators -/

/-- The two functions of `encoding/json` the server uses: `json.Unmarshal` into a
`map[string]interface{}` (its argument may be a nil slice) and `json.Marshal`;
`IsNil` tells whether a document is the nil map. -/
structure Codec (J : Type) where
  Unmarshal : Option Bytes → Except Error J
  Marshal : J → Except Error Bytes
  IsNil : J → Bool

/-- The event store as the server sees it. Each method answers from its
arguments; the server logs the call in the trace. `FindIDs` receives the
callback it is to invoke for each id. -/
structure EventStore (J : Type) where
  AddEvent : UnaddedEvent J → Except Error String
  FindByID : String → Except Error (Event J)
  Find : PQuery → Except Error (List (Event J))
  FindIDs : TimeQuery → (String → World J → Option Error × World J) →
    World J → Option Error × World J
  AddTopic : Topic J → Except Error String
  UpdateTopic : String → Topic J → Except Error String
  DeleteTopic : DeleteTopicRequest → Option Error
  GetTopics : Except Error (List (Topic J))
  AddDC : PDC → Except Error String
  UpdateDC : UpdateDCRequest → Except Error String
  GetDCs : Except Error (List DCRow)
  getDCName : String → String
  getTopicName : String → String

/-- A server-side stream: `Send` either delivers the message or fails. -/
structure Stream (J : Type) (M : Type) where
  Send : M → World J → Option Error × World J

/-- The server: its store, the JSON codec and the rendering of a query with the
verb `%v`. -/
structure GRPCServer (J : Type) where
  store : EventStore J
  json : Codec J
  showQuery : PQuery → String

/-! ## `grpc_server.go` -/

/-- The Go method `performOperation`: run `op`, count the outcome under `method`,
and, by the deferred call, record one latency observation when returning. -/
def GRPCServer.performOperation {J : Type} (_s : GRPCServer J) (method : String)
    (op : World J → Except Error String × World J) (w : World J) :
    Except Error WriteResponse × World J :=
  match op w with
  | (.error err, w1) =>
    let w2 := w1 ++ [.inc method "1"]
    let w3 := w2 ++ [.println ["Error performing operation", method, err.text]]
    (.error (.wrap err ("operation " ++ method)), w3 ++ [.observe method])
  | (.ok id, w1) =>
    let w2 := w1 ++ [.inc method "0"]
    (.ok { Id := id }, w2 ++ [.observe method])

/-- The statement `if b == nil (b = the bytes of the empty object)`: the value
of `b` after it. -/
def orEmptyObject (b : Option Bytes) : Option Bytes :=
  match b with
  | none => some emptyObject
  | some b => some b

/-- The closure `AddEvent` hands to `performOperation`. -/
def GRPCServer.AddEvent.op {J : Type} (s : GRPCServer J) (evt : PEvent) (w : World J) :
    Except Error String × World J :=
  match s.json.Unmarshal (orEmptyObject evt.Data) with
  | .error err => (.error (.wrap err "json decode of data"), w)
  | .ok data =>
    let u : UnaddedEvent J :=
      { ParentEventID := evt.ParentEventId
        EventTime := evt.EventTime
        DC := evt.DC
        TopicName := evt.TopicName
        Tags := evt.TagSet
        Host := evt.Host
        TargetHosts := evt.TargetHostSet
        User := evt.User
        Data := data }
    (s.store.AddEvent u, w ++ [.storeAddEvent u])

/-- The Go method `AddEvent`. -/
def GRPCServer.AddEvent {J : Type} (s : GRPCServer J) (evt : PEvent) (w : World J) :
    Except Error WriteResponse × World J :=
  s.performOperation "AddEvent" (GRPCServer.AddEvent.op s evt) w

/-- The message `GetEventByID` and `GetEvents` build from a stored event and its
encoded data. -/
def GRPCServer.toProto {J : Type} (s : GRPCServer J) (ev : Event J) (d : Bytes) : PEvent :=
  { EventId := ev.EventID
    ParentEventId := ev.ParentEventID
    EventTime := ev.EventTime
    DC := s.store.getDCName ev.DCID
    TopicName := s.store.getTopicName ev.TopicID
    TagSet := ev.Tags
    Host := ev.Host
    TargetHostSet := ev.TargetHosts
    User := ev.User
    Data := some d }

/-- Whether `json.Marshal` accepts the data of a stored event. -/
def GRPCServer.encodes {J : Type} (s : GRPCServer J) (ev : Event J) : Bool :=
  match s.json.Marshal ev.Data with
  | .ok _ => true
  | .error _ => false

/-- The message for a stored event, when its data encodes. -/
def GRPCServer.translate {J : Type} (s : GRPCServer J) (ev : Event J) : Option PEvent :=
  match s.json.Marshal ev.Data with
  | .ok d => some (s.toProto ev d)
  | .error _ => none

/-- The deferred latency observation of a handler: it runs when the body returns. -/
def observeOnReturn {J α : Type} (name : String) (body : α × World J) : α × World J :=
  (body.1, body.2 ++ [.observe name])

/-- The Go method `GetEventByID`. -/
def GRPCServer.GetEventByID {J : Type} (s : GRPCServer J) (id : String) (w : World J) :
    Except Error PEvent × World J :=
  let name := "GetEventByID"
  observeOnReturn name <|
    let w1 := w ++ [.storeFindByID id]
    match s.store.FindByID id with
    | .error err =>
      let w2 := w1 ++ [.inc name "1"]
      let w3 := w2 ++ [.println ["Error performing event store find", err.text]]
      (.error (.wrap err ("could not find by id%!(EXTRA string=" ++ id ++ ")")), w3)
    | .ok ev =>
      match s.json.Marshal ev.Data with
      | .error err =>
        let w2 := w1 ++ [.inc name "1"]
        let w3 := w2 ++ [.println ["Error marshalling event data into JSON", err.text]]
        (.error (.wrap err "data json marshal"), w3)
      | .ok d => (.ok (s.toProto ev d), w1)

/-- The `for _, ev := range events` loop of `GetEvents`, together with the
statements after it. The result is the error `GetEvents` returns. -/
def GRPCServer.GetEvents.loop {J : Type} (s : GRPCServer J) (stream : Stream J PEvent)
    (name : String) : List (Event J) → World J → Option Error × World J
  | [], w => (none, w ++ [.inc name "0"])
  | ev :: rest, w =>
    match s.json.Marshal ev.Data with
    | .error err =>
      let w1 := w ++ [.inc name "1"]
      let w2 := w1 ++ [.println ["Error marshalling event data into JSON", err.text]]
      (some (.wrap err "json marshal of data"), w2)
    | .ok d =>
      match stream.Send (s.toProto ev d) w with
      | (some err, w1) =>
        let w2 := w1 ++ [.inc name "1"]
        let w3 := w2 ++ [.println ["Error streaming event to grpc client", err.text]]
        (some (.wrap err "stream send"), w3)
      | (none, w1) => GRPCServer.GetEvents.loop s stream name rest w1

/-- The Go method `GetEvents`. -/
def GRPCServer.GetEvents {J : Type} (s : GRPCServer J) (q : PQuery) (stream : Stream J PEvent)
    (w : World J) : Option Error × World J :=
  let name := "GetEvents"
  observeOnReturn name <|
    let w1 := w ++ [.storeFind q]
    match s.store.Find q with
    | .error err =>
      let w2 := w1 ++ [.inc name "1"]
      let w3 := w2 ++ [.println ["Error performing event store find", err.text]]
      (some (.wrap err ("unable to find " ++ s.showQuery q)), w3)
    | .ok events => GRPCServer.GetEvents.loop s stream name events w1

/-- The Go method `GetEventIDs`. The label of its latency observation is the
string the source gives it. -/
def GRPCServer.GetEventIDs {J : Type} (s : GRPCServer J) (q : TimeQuery)
    (stream : Stream J String) (w : World J) : Option Error × World J :=
  let name := "GetEventByIDs"
  observeOnReturn name <|
    let streamProxy := fun (eventID : String) (w : World J) => stream.Send eventID w
    s.store.FindIDs q streamProxy (w ++ [.storeFindIDs q])

/-- The closure `AddTopic` hands to `performOperation`. -/
def GRPCServer.AddTopic.op {J : Type} (s : GRPCServer J) (t : PTopic) (w : World J) :
    Except Error String × World J :=
  match s.json.Unmarshal (orEmptyObject t.DataSchema) with
  | .error err => (.error (.wrap err "json unmarshal of data schema"), w)
  | .ok schema =>
    let topic : Topic J := { ID := "", Name := t.TopicName, Schema := schema }
    (s.store.AddTopic topic, w ++ [.storeAddTopic topic])

/-- The Go method `AddTopic`. -/
def GRPCServer.AddTopic {J : Type} (s : GRPCServer J) (t : PTopic) (w : World J) :
    Except Error WriteResponse × World J :=
  s.performOperation "AddTopic" (GRPCServer.AddTopic.op s t) w

/-- The closure `UpdateTopic` hands to `performOperation`. -/
def GRPCServer.UpdateTopic.op {J : Type} (s : GRPCServer J) (t : UpdateTopicRequest)
    (w : World J) : Except Error String × World J :=
  match s.json.Unmarshal t.DataSchema with
  | .error err => (.error (.wrap err "json unmarshal of data schema"), w)
  | .ok schema =>
    let topic : Topic J := { ID := "", Name := t.NewName, Schema := schema }
    (s.store.UpdateTopic t.OldName topic, w ++ [.storeUpdateTopic t.OldName topic])

/-- The Go method `UpdateTopic`. -/
def GRPCServer.UpdateTopic {J : Type} (s : GRPCServer J) (t : UpdateTopicRequest)
    (w : World J) : Except Error WriteResponse × World J :=
  s.performOperation "UpdateTopic" (GRPCServer.UpdateTopic.op s t) w

/-- The Go method `DeleteTopic`. -/
def GRPCServer.DeleteTopic {J : Type} (s : GRPCServer J) (t : DeleteTopicRequest)
    (w : World J) : Except Error WriteResponse × World J :=
  let name := "DeleteTopic"
  observeOnReturn name <|
    let w1 := w ++ [.storeDeleteTopic t]
    match s.store.DeleteTopic t with
    | some err =>
      let w2 := w1 ++ [.inc name "1"]
      let w3 := w2 ++ [.println ["Error deleting topic: ", err.text]]
      (.error (.wrap err "delete topic"), w3)
    | none => (.ok { Id := "" }, w1 ++ [.inc name "0"])

/-- The `for _, topic := range topics` loop of `GetTopics`, together with the
statements after it; `acc` is `topicResults`. -/
def GRPCServer.GetTopics.loop {J : Type} (s : GRPCServer J) (name : String) :
    List (Topic J) → List PTopic → World J → Except Error (List PTopic) × World J
  | [], acc, w => (.ok acc, w ++ [.inc name "0"])
  | topic :: rest, acc, w =>
    if s.json.IsNil topic.Schema then
      GRPCServer.GetTopics.loop s name rest
        (acc ++ [{ Id := topic.ID, TopicName := topic.Name, DataSchema := some emptyObject }]) w
    else
      match s.json.Marshal topic.Schema with
      | .error err =>
        let w1 := w ++ [.inc name "1"]
        let w2 := w1 ++ [.println ["Error marshalling topic schema: ", err.text]]
        (.error (.wrap err "json marshal of schema"), w2)
      | .ok schemaBytes =>
        GRPCServer.GetTopics.loop s name rest
          (acc ++ [{ Id := topic.ID, TopicName := topic.Name, DataSchema := some schemaBytes }]) w

/-- The Go method `GetTopics`. -/
def GRPCServer.GetTopics {J : Type} (s : GRPCServer J) (w : World J) :
    Except Error (List PTopic) × World J :=
  let name := "GetTopics"
  observeOnReturn name <|
    let w1 := w ++ [.storeGetTopics]
    match s.store.GetTopics with
    | .error err =>
      let w2 := w1 ++ [.inc name "1"]
      let w3 := w2 ++ [.println ["Error getting topics: ", err.text]]
      (.error (.wrap err "get topics"), w3)
    | .ok topics => GRPCServer.GetTopics.loop s name topics [] w1

/-- The Go method `AddDC`. -/
def GRPCServer.AddDC {J : Type} (s : GRPCServer J) (d : PDC) (w : World J) :
    Except Error WriteResponse × World J :=
  s.performOperation "AddDC" (fun w => (s.store.AddDC d, w ++ [.storeAddDC d])) w

/-- The Go method `UpdateDC`. -/
def GRPCServer.UpdateDC {J : Type} (s : GRPCServer J) (t : UpdateDCRequest) (w : World J) :
    Except Error WriteResponse × World J :=
  s.performOperation "UpdateDC" (fun w => (s.store.UpdateDC t, w ++ [.storeUpdateDC t])) w

/-- The Go method `GetDCs`. -/
def GRPCServer.GetDCs {J : Type} (s : GRPCServer J) (w : World J) :
    Except Error (List PDC) × World J :=
  let name := "GetDCs"
  observeOnReturn name <|
    let w1 := w ++ [.storeGetDCs]
    match s.store.GetDCs with
    | .error err =>
      let w2 := w1 ++ [.inc name "1"]
      let w3 := w2 ++ [.println ["Error getting topics: ", err.text]]
      (.error (.wrap err "get dcs"), w3)
    | .ok dcs =>
      let dcResults := dcs.map (fun dc => ({ ID := dc.ID, DCName := dc.Name } : PDC))
      (.ok dcResults, w1 ++ [.inc name "0"])

/-- The Go method `Healthcheck`. -/
def GRPCServer.Healthcheck {J : Type} (_s : GRPCServer J) (w : World J) :
    Except Error HealthcheckResponse × World J :=
  (.ok { Response := "OK" }, w)

/-! ## A test double of the collaborators

A small codec, store and stream, of the kind a unit test of the server would
use; the closed examples below run the handlers against them. -/

/-- The documents of the test codec: the nil map, the empty object, and a map
holding a Go channel, which `json.Marshal` rejects. -/
inductive StubDoc where
  | nil
  | empty
  | channel
  deriving DecidableEq, Repr

/-- The test codec. Decoding knows the empty object and `null` (ASCII 110, 117,
108, 108) and fails on the nil or empty slice, as `json.Unmarshal` does
("unexpected end of JSON input"), and on everything else. -/
def stubCodec : Codec StubDoc where
  Unmarshal := fun b =>
    match b with
    | none => .error (.base "unexpected end of JSON input")
    | some [] => .error (.base "unexpected end of JSON input")
    | some [123, 125] => .ok .empty
    | some [110, 117, 108, 108] => .ok .nil
    | some _ => .error (.base "invalid character")
  Marshal := fun d =>
    match d with
    | .nil => .ok [110, 117, 108, 108]
    | .empty => .ok emptyObject
    | .channel => .error (.base "json: unsupported type: chan int")
  IsNil := fun d =>
    match d with
    | .nil => true
    | _ => false

/-- A stream that delivers every message. -/
def recordingStream (J : Type) : Stream J PEvent where
  Send := fun msg w => (none, w ++ [.send msg])

/-- A stream of ids that delivers every message. -/
def recordingIDStream (J : Type) : Stream J String where
  Send := fun id w => (none, w ++ [.sendID id])

/-- A stored event of the test store with the given id and data. -/
def stubEvent (id : String) (d : StubDoc) : Event StubDoc :=
  { EventID := id, ParentEventID := "", EventTime := 1500000000, DCID := "dc-1"
    TopicID := "topic-1", Tags := ["t"], Host := "h", TargetHosts := [], User := "u"
    Data := d }

/-- The test store: it accepts every write, knows the event `e1`, and answers a
query with three events, the third of which holds data that does not encode. -/
def stubStore : EventStore StubDoc where
  AddEvent := fun _ => .ok "id-1"
  FindByID := fun id =>
    if id == "e1" then .ok (stubEvent "e1" .empty) else .error (.base "not found")
  Find := fun _ => .ok [stubEvent "e1" .empty, stubEvent "e2" .nil, stubEvent "e3" .channel]
  FindIDs := fun _ emit w =>
    match emit "e1" w with
    | (some err, w1) => (some err, w1)
    | (none, w1) => emit "e2" w1
  AddTopic := fun _ => .ok "topic-1"
  UpdateTopic := fun _ _ => .ok "topic-1"
  DeleteTopic := fun _ => none
  GetTopics := .ok [{ ID := "topic-1", Name := "deploys", Schema := .nil }]
  AddDC := fun _ => .ok "dc-1"
  UpdateDC := fun _ => .error (.base "no such dc")
  GetDCs := .ok [{ ID := "dc-1", Name := "sjc" }]
  getDCName := fun _ => "sjc"
  getTopicName := fun _ => "deploys"

/-- The server over the test store and the test codec. -/
def stubServer : GRPCServer StubDoc where
  store := stubStore
  json := stubCodec
  showQuery := fun _ => "query"

/-- A request event with the given data bytes. -/
def stubRequest (data : Option Bytes) : PEvent :=
  { EventId := "", ParentEventId := "p", EventTime := 1500000000, DC := "sjc"
    TopicName := "deploys", TagSet := ["a", "b"], Host := "h1", TargetHostSet := ["h2"]
    User := "me", Data := data }

end Eventmaster

namespace UI

open Eventmaster (Error)

/-! ## Data model of the form handlers (`ui_handlers.go`, package `main`) -/

/-- The outcome of running Go code that may panic at run time. -/
inductive Outcome (α : Type) where
  | returned (a : α)
  | panicked (msg : String)
  deriving DecidableEq, Repr

/-- Sequencing: a panic ends the computation. -/
def Outcome.bind {α β : Type} (x : Outcome α) (f : α → Outcome β) : Outcome β :=
  match x with
  | .returned a => f a
  | .panicked msg => .panicked msg

instance : Monad Outcome where
  pure := Outcome.returned
  bind := Outcome.bind

/-- The Go type `url.Values` (`map[string][]string`), as the list of its entries. -/
abbrev Values := List (String × List String)

/-- The map lookup `v[key]`: the nil slice when the key is absent. -/
def Values.lookup (v : Values) (key : String) : List String :=
  match v.find? (fun kv => kv.1 == key) with
  | some kv => kv.2
  | none => []

/-- The slice index `xs[i]`, which panics when `i` is out of range. -/
def index (xs : List String) (i : Nat) : Outcome String :=
  match xs.get? i with
  | some x => .returned x
  | none => .panicked ("runtime error: index out of range [" ++ toString i ++
      "] with length " ++ toString xs.length)

/-- A request: the error `r.ParseForm()` returns and the value of `r.Form`
after that call. -/
structure Request where
  ParseForm : Option Error
  Form : Values
  deriving DecidableEq, Repr

/-- A `time.Time`, by the value of its `Unix()` method. -/
structure Time where
  Unix : Int
  deriving DecidableEq, Repr

/-- The zero `time.Time` (January 1, year 1, 00:00 UTC). -/
def zeroTime : Time := { Unix := -62135596800 }

/-- The struct `Query` of the form front end. -/
structure Query where
  Dc : String
  Host : String
  TopicName : String
  TimeStart : Int
  TimeEnd : Int
  deriving DecidableEq, Repr

/-- The struct `eventmaster.Event` the create handler hands to the store. -/
structure Event where
  Timestamp : Int
  Dc : String
  TopicName : String
  Tags : List String
  Host : String
  User : String
  Data : String
  deriving DecidableEq, Repr

/-- An event as the store returns it to a page; the handlers pass it to the
template unread. -/
structure FullEvent where
  EventID : String
  deriving DecidableEq, Repr

/-- The struct `pageData`. -/
structure pageData where
  CurPage : Int
  TotalPages : Int
  Dc : String
  Topic : String
  Host : String
  Date : String
  Dcs : List String
  Topics : List String
  Events : List FullEvent
  deriving DecidableEq, Repr

/-- One call a form handler makes on the response or on the store. -/
inductive Call where
  /-- The call `http.Error(w, body, code)`. -/
  | httpError (body : String) (code : Nat)
  /-- The call `http.Redirect(w, r, url, code)`. -/
  | redirect (url : String) (code : Nat)
  | storeAddEvent (ev : Event)
  | storeFind (q : Query)
  | storeGetTopics
  | storeGetDcs
  /-- The call `t.Execute(w, data)`. -/
  | execute (data : pageData)
  deriving DecidableEq, Repr

/-- What a handler did: the calls it made, in order, and the panic that ended
it, if one did. -/
structure Served where
  calls : List Call
  panic : Option String
  deriving DecidableEq, Repr

/-- The event store as the form handlers see it. -/
structure EventStore where
  AddEvent : Event → Option Error
  Find : Query → Except Error (List FullEvent)
  GetTopics : List String
  GetDcs : List String

/-- The library functions the handlers call: `time.Parse(layout, value)`, the
parsing of the template files and `t.Execute`. -/
structure Runtime where
  timeParse : String → String → Time × Option Error
  parseFiles : List String → Option Error
  execute : pageData → Option Error

/-- The struct `getEventHandler`. -/
structure getEventHandler where
  store : EventStore
  rt : Runtime

/-- The struct `createEventHandler`. -/
structure createEventHandler where
  store : EventStore
  rt : Runtime

/-! ## `ui_handlers.go` -/

/-- The `if r.Form[key][0] == "" (..) else (..)` block of `buildQuery` for one
bound, given the value `r.Form[key][0]`. -/
def getEventHandler.bound (geh : getEventHandler) (value : String) : Except Error Int :=
  if value == "" then
    .ok (-1)
  else
    match geh.rt.timeParse "2006-01-02" value with
    | (_, some err) => .error err
    | (t, none) => .ok t.Unix

/-- The Go method `buildQuery`. -/
def getEventHandler.buildQuery (geh : getEventHandler) (r : Request) :
    Outcome (Except Error Query) :=
  match r.ParseForm with
  | some err => .returned (.error err)
  | none => do
    let startDate ← index (r.Form.lookup "startDate") 0
    match geh.bound startDate with
    | .error err => pure (.error err)
    | .ok startingTime => do
      let endDate ← index (r.Form.lookup "endDate") 0
      match geh.bound endDate with
      | .error err => pure (.error err)
      | .ok endingTime => do
        let dc ← index (r.Form.lookup "dc") 0
        let host ← index (r.Form.lookup "host") 0
        let topic ← index (r.Form.lookup "topic") 0
        pure (.ok
          { Dc := dc
            Host := host
            TopicName := topic
            TimeStart := startingTime
            TimeEnd := endingTime })

/-- The Go method `ServeHTTP` of `getEventHandler`. -/
def getEventHandler.ServeHTTP (geh : getEventHandler) (r : Request) : Served :=
  match geh.buildQuery r with
  | .panicked msg => { calls := [], panic := some msg }
  | .returned (.error err) =>
    { calls := [.httpError ("couldn't build query from form: " ++ err.text) 500], panic := none }
  | .returned (.ok q) =>
    match geh.store.Find q with
    | .error err =>
      { calls := [.storeFind q,
          .httpError ("error finding results in cassandra: " ++ err.text) 500], panic := none }
    | .ok events =>
      match geh.rt.parseFiles ["templates/main.html", "templates/query_form.html"] with
      | some err =>
        { calls := [.storeFind q,
            .httpError ("error parsing template main.html: " ++ err.text) 500], panic := none }
      | none =>
        let data : pageData :=
          { CurPage := 0, TotalPages := 0, Dc := "", Topic := "", Host := "", Date := ""
            Dcs := geh.store.GetDcs
            Topics := geh.store.GetTopics
            Events := events }
        let calls := [.storeFind q, .storeGetTopics, .storeGetDcs, .execute data]
        match geh.rt.execute data with
        | some err =>
          { calls := calls ++ [.httpError ("error executing template: " ++ err.text) 500],
            panic := none }
        | none => { calls := calls, panic := none }

/-- The characters of a string cut at every occurrence of `sep`; `cur` holds the
current piece, last character first. -/
def splitAux (sep : Char) : List Char → List Char → List String
  | [], cur => [String.mk cur.reverse]
  | c :: cs, cur =>
    if c = sep then String.mk cur.reverse :: splitAux sep cs []
    else splitAux sep cs (c :: cur)

/-- The library function `strings.Split(s, sep)` for a separator of one character. -/
def stringsSplit (s : String) (sep : Char) : List String :=
  splitAux sep s.toList []

/-- The eight form values `ServeHTTP` of `createEventHandler` reads, in the
order it reads them. -/
structure createEventHandler.Fields where
  topic : String
  dc : String
  tags : String
  host : String
  user : String
  data : String
  date : String
  timeOfDay : String
  deriving DecidableEq, Repr

/-- The eight lookups `r.Form[key][0]` at the head of `ServeHTTP`. -/
def createEventHandler.readFields (r : Request) : Outcome createEventHandler.Fields := do
  let topic ← index (r.Form.lookup "topic") 0
  let dc ← index (r.Form.lookup "dc") 0
  let tags ← index (r.Form.lookup "tags") 0
  let host ← index (r.Form.lookup "host") 0
  let user ← index (r.Form.lookup "user") 0
  let data ← index (r.Form.lookup "data") 0
  let date ← index (r.Form.lookup "date") 0
  let timeOfDay ← index (r.Form.lookup "time") 0
  pure { topic, dc, tags, host, user, data, date, timeOfDay }

/-- The Go method `ServeHTTP` of `createEventHandler`. After a failed
`time.Parse` and after a failed `AddEvent` the source writes the error and goes
on to the next statement. -/
def createEventHandler.ServeHTTP (ceh : createEventHandler) (r : Request) : Served :=
  match r.ParseForm with
  | some err =>
    { calls := [.httpError ("error parsing form: " ++ err.text) 500], panic := none }
  | none =>
    match createEventHandler.readFields r with
    | .panicked msg => { calls := [], panic := some msg }
    | .returned f =>
      if f.date == "" then
        { calls := [.httpError "date cannot be empty" 400], panic := none }
      else if f.timeOfDay == "" then
        { calls := [.httpError "time cannot be empty" 400], panic := none }
      else
        let fullTime := f.date ++ " " ++ f.timeOfDay
        let (ts, err) := ceh.rt.timeParse "2006-01-02 15:04" fullTime
        let calls1 : List Call := match err with
          | some err => [.httpError ("invalid date entered: " ++ err.text) 500]
          | none => []
        let tgs : List String := if f.tags != "" then stringsSplit f.tags ',' else []
        let ev : Event :=
          { Timestamp := ts.Unix
            Dc := f.dc
            TopicName := f.topic
            Tags := tgs
            Host := f.host
            User := f.user
            Data := f.data }
        let calls2 := calls1 ++ [.storeAddEvent ev]
        let calls3 : List Call := match ceh.store.AddEvent ev with
          | some err =>
            calls2 ++ [.httpError ("error writing event to cassandra: " ++ err.text) 500]
          | none => calls2
        { calls := calls3 ++ [.redirect "/" 301], panic := none }

/-! ## A test double of the collaborators of the form handlers -/

/-- The value of a decimal digit. -/
def digit? (c : Char) : Option Nat :=
  if c.isDigit then some (c.toNat - 48) else none

/-- The value of a two-digit field. -/
def twoDigits? (a b : Char) : Option Nat :=
  match digit? a, digit? b with
  | some x, some y => some (10 * x + y)
  | _, _ => none

/-- The value of a four-digit field. -/
def fourDigits? (a b c d : Char) : Option Nat :=
  match twoDigits? a b, twoDigits? c d with
  | some x, some y => some (100 * x + y)
  | _, _ => none

/-- The number of days of a month of the proleptic Gregorian calendar. -/
def daysIn (year month : Nat) : Nat :=
  if month = 2 then
    if year % 4 = 0 ∧ (year % 100 ≠ 0 ∨ year % 400 = 0) then 29 else 28
  else if month = 4 ∨ month = 6 ∨ month = 9 ∨ month = 11 then 30
  else 31

/-- The number of days from 1970-01-01 to the given calendar date. -/
def daysFromCivil (year month day : Nat) : Int :=
  let y : Int := if month ≤ 2 then (year : Int) - 1 else year
  let era : Int := y / 400
  let yoe : Int := y - era * 400
  let mp : Int := if month ≤ 2 then (month : Int) + 9 else (month : Int) - 3
  let doy : Int := (153 * mp + 2) / 5 + (day : Int) - 1
  let doe : Int := yoe * 365 + yoe / 4 - yoe / 100 + doy
  era * 146097 + doe - 719468

/-- The Unix time of midnight UTC of a zero-padded calendar date `YYYY-MM-DD`. -/
def parseDate (cs : List Char) : Except Error Int :=
  match cs with
  | [y1, y2, y3, y4, '-', m1, m2, '-', d1, d2] =>
    match fourDigits? y1 y2 y3 y4, twoDigits? m1 m2, twoDigits? d1 d2 with
    | some year, some month, some day =>
      if month < 1 ∨ 12 < month then .error (.base "parsing time: month out of range")
      else if day < 1 ∨ daysIn year month < day then
        .error (.base "parsing time: day out of range")
      else .ok (daysFromCivil year month day * 86400)
    | _, _, _ => .error (.base "parsing time: cannot parse")
  | _ => .error (.base "parsing time: cannot parse")

/-- The number of seconds into the day of a zero-padded time of day `HH:MM`. -/
def parseClock (cs : List Char) : Except Error Int :=
  match cs with
  | [h1, h2, ':', m1, m2] =>
    match twoDigits? h1 h2, twoDigits? m1 m2 with
    | some hour, some minute =>
      if 23 < hour then .error (.base "parsing time: hour out of range")
      else if 59 < minute then .error (.base "parsing time: minute out of range")
      else .ok ((hour : Int) * 3600 + (minute : Int) * 60)
    | _, _ => .error (.base "parsing time: cannot parse")
  | _ => .error (.base "parsing time: cannot parse")

/-- A stand-in for `time.Parse` on the two layouts the handlers use, for
zero-padded input: the time is read as UTC, and a failed parse returns the zero
time together with the error. -/
def stubTimeParse (layout value : String) : Time × Option Error :=
  if layout == "2006-01-02" then
    match parseDate value.toList with
    | .ok secs => ({ Unix := secs }, none)
    | .error err => (zeroTime, some err)
  else if layout == "2006-01-02 15:04" then
    match parseDate (value.toList.take 10), value.toList.drop 10 with
    | .ok secs, ' ' :: rest =>
      match parseClock rest with
      | .ok extra => ({ Unix := secs + extra }, none)
      | .error err => (zeroTime, some err)
    | .ok _, _ => (zeroTime, some (.base "parsing time: cannot parse"))
    | .error err, _ => (zeroTime, some err)
  else (zeroTime, some (.base "unsupported layout"))

/-- The test runtime: the stand-in parser, and templates that parse and render. -/
def stubRuntime : Runtime where
  timeParse := stubTimeParse
  parseFiles := fun _ => none
  execute := fun _ => none

/-- The test store of the form handlers: it accepts every write and finds one
event. -/
def stubStore : EventStore where
  AddEvent := fun _ => none
  Find := fun _ => .ok [{ EventID := "e1" }]
  GetTopics := ["deploys"]
  GetDcs := ["sjc"]

/-- A test store whose write fails. -/
def failingStore : EventStore where
  AddEvent := fun _ => some (.base "cassandra unavailable")
  Find := fun _ => .error (.base "cassandra unavailable")
  GetTopics := []
  GetDcs := []

/-- Whether the handler answered with the status `code` through `http.Error`. -/
def Served.hasStatus (sv : Served) (code : Nat) : Bool :=
  sv.calls.any (fun c => match c with
    | .httpError _ c => c == code
    | _ => false)

/-- Whether the handler called `http.Redirect`. -/
def Served.redirected (sv : Served) : Bool :=
  sv.calls.any (fun c => match c with
    | .redirect _ _ => true
    | _ => false)

/-- The events the handler handed to the store's `AddEvent`. -/
def Served.addEventCalls (sv : Served) : List Event :=
  sv.calls.filterMap (fun c => match c with
    | .storeAddEvent ev => some ev
    | _ => none)

/-- The queries the handler handed to the store's `Find`. -/
def Served.findCalls (sv : Served) : List Query :=
  sv.calls.filterMap (fun c => match c with
    | .storeFind q => some q
    | _ => none)

/-- The form keys `ServeHTTP` of `createEventHandler` reads. -/
def createEventHandler.keys : List String :=
  ["topic", "dc", "tags", "host", "user", "data", "date", "time"]

/-- The form keys `buildQuery` reads. -/
def getEventHandler.keys : List String :=
  ["startDate", "endDate", "dc", "host", "topic"]

end UI

namespace Eventmaster

/-! ## Counting in a trace -/

theorem counterValue_append {J : Type} (w v : World J) (m c : String) :
    counterValue (w ++ v) m c = counterValue w m c + counterValue v m c := by
  simp [counterValue, List.filter_append]

theorem observations_append {J : Type} (w v : World J) (m : String) :
    observations (w ++ v) m = observations w m + observations v m := by
  simp [observations, List.filter_append]

theorem metricsOf_append {J : Type} (w v : World J) :
    metricsOf (w ++ v) = metricsOf w ++ metricsOf v := by
  induction w with
  | nil => simp [metricsOf]
  | cons e w ih => cases e <;> simp [metricsOf, ih]

theorem addEventCalls_append {J : Type} (w v : World J) :
    addEventCalls (w ++ v) = addEventCalls w ++ addEventCalls v := by
  induction w with
  | nil => simp [addEventCalls]
  | cons e w ih => cases e <;> simp [addEventCalls, ih]

theorem topicCalls_append {J : Type} (w v : World J) :
    topicCalls (w ++ v) = topicCalls w ++ topicCalls v := by
  induction w with
  | nil => simp [topicCalls]
  | cons e w ih => cases e <;> simp [topicCalls, ih]

theorem sentOf_append {J : Type} (w v : World J) :
    sentOf (w ++ v) = sentOf w ++ sentOf v := by
  induction w with
  | nil => simp [sentOf]
  | cons e w ih => cases e <;> simp [sentOf, ih]

/-! ## The operation wrapper -/

/-- C3. For every operation name `m` and every `op`, `performOperation m op`
runs `op` once (the trace it leaves is the trace `op` leaves, followed only by
metric and log calls), records exactly one latency observation labelled `m`,
and: when `op` returns an id, increments the counter `(m, "0")` once, leaves
`(m, "1")` alone and returns a response carrying that id; when `op` returns an
error `e`, increments `(m, "1")` once, leaves `(m, "0")` alone and returns an
error whose cause is `e` and whose message is the operation name. -/
theorem performOperation_counts_once {J : Type} (s : GRPCServer J) (m : String)
    (op : World J → Except Error String × World J) (w : World J) :
    (∃ tail, (s.performOperation m op w).2 = (op w).2 ++ tail ∧
      tail.all Effect.isInstrumentation = true) ∧
    observations (s.performOperation m op w).2 m = observations (op w).2 m + 1 ∧
    match (op w).1 with
    | .ok id =>
      (s.performOperation m op w).1 = .ok { Id := id } ∧
      counterValue (s.performOperation m op w).2 m "0" = counterValue (op w).2 m "0" + 1 ∧
      counterValue (s.performOperation m op w).2 m "1" = counterValue (op w).2 m "1"
    | .error e =>
      (s.performOperation m op w).1 = .error (.wrap e ("operation " ++ m)) ∧
      (Error.wrap e ("operation " ++ m)).cause? = some e ∧
      counterValue (s.performOperation m op w).2 m "1" = counterValue (op w).2 m "1" + 1 ∧
      counterValue (s.performOperation m op w).2 m "0" = counterValue (op w).2 m "0" := by
  unfold GRPCServer.performOperation
  rcases h : op w with ⟨r, w1⟩
  cases r with
  | error e =>
    refine ⟨⟨[.inc m "1", .println ["Error performing operation", m, e.text], .observe m],
      by simp, rfl⟩, ?_, ?_⟩
    · simp [observations, List.filter_append]
    · simp [counterValue, List.filter_append, Error.cause?]
  | ok id =>
    refine ⟨⟨[.inc m "0", .observe m], by simp, rfl⟩, ?_, ?_⟩
    · simp [observations, List.filter_append]
    · simp [counterValue, List.filter_append]

/-! ## AddEvent -/

/-- C1. When the data bytes of an event are present and `json.Unmarshal`
rejects them, `AddEvent` returns an error and no response, the error being the
decode error wrapped twice, and the store's `AddEvent` is not invoked: the
handler adds one failure count, one log line and one latency observation to the
trace and nothing else. -/
theorem AddEvent_malformed_data {J : Type} (s : GRPCServer J) (evt : PEvent) (b : Bytes)
    (e : Error) (w : World J) (hdata : evt.Data = some b)
    (hbad : s.json.Unmarshal (some b) = .error e) :
    (s.AddEvent evt w).1 =
      .error (.wrap (.wrap e "json decode of data") "operation AddEvent") ∧
    (s.AddEvent evt w).2 = w ++ [.inc "AddEvent" "1",
      .println ["Error performing operation", "AddEvent",
        (Error.wrap e "json decode of data").text],
      .observe "AddEvent"] ∧
    addEventCalls (s.AddEvent evt w).2 = addEventCalls w := by
  have h : s.AddEvent evt w =
      (.error (.wrap (.wrap e "json decode of data") "operation AddEvent"),
        w ++ [.inc "AddEvent" "1",
          .println ["Error performing operation", "AddEvent",
            (Error.wrap e "json decode of data").text],
          .observe "AddEvent"]) := by
    simp [GRPCServer.AddEvent, GRPCServer.performOperation, GRPCServer.AddEvent.op, orEmptyObject, hdata, hbad]
  rw [h]
  simp [addEventCalls_append, addEventCalls]

/-- A malformed payload against the test double: the bytes of `{` alone. -/
theorem AddEvent_malformed_data_witness :
    (stubRequest (some [123])).Data = some [123] ∧
    stubServer.json.Unmarshal (some [123]) = .error (.base "invalid character") ∧
    addEventCalls (stubServer.AddEvent (stubRequest (some [123])) []).2 = [] :=
  ⟨rfl, rfl,
    (AddEvent_malformed_data stubServer (stubRequest (some [123])) [123]
      (.base "invalid character") [] rfl rfl).2.2⟩

/-- C2. When the data of an event is absent and `d` is the decoding of the
bytes of the empty object, `AddEvent` invokes the store's `AddEvent` exactly
once, with an event whose `Data` is `d` and whose other fields are those of the
request, and what it returns is decided by the store alone: the id the store
assigned, or the store's error wrapped with the operation name. -/
theorem AddEvent_absent_data {J : Type} (s : GRPCServer J) (evt : PEvent) (d : J)
    (w : World J) (hnil : evt.Data = none)
    (hdec : s.json.Unmarshal (some emptyObject) = .ok d) :
    addEventCalls (s.AddEvent evt w).2 = addEventCalls w ++
      [{ ParentEventID := evt.ParentEventId
         EventTime := evt.EventTime
         DC := evt.DC
         TopicName := evt.TopicName
         Tags := evt.TagSet
         Host := evt.Host
         TargetHosts := evt.TargetHostSet
         User := evt.User
         Data := d }] ∧
    (s.AddEvent evt w).1 =
      match s.store.AddEvent
        { ParentEventID := evt.ParentEventId
          EventTime := evt.EventTime
          DC := evt.DC
          TopicName := evt.TopicName
          Tags := evt.TagSet
          Host := evt.Host
          TargetHosts := evt.TargetHostSet
          User := evt.User
          Data := d } with
      | .ok id => .ok { Id := id }
      | .error err => .error (.wrap err "operation AddEvent") := by
  cases hst : s.store.AddEvent
      { ParentEventID := evt.ParentEventId
        EventTime := evt.EventTime
        DC := evt.DC
        TopicName := evt.TopicName
        Tags := evt.TagSet
        Host := evt.Host
        TargetHosts := evt.TargetHostSet
        User := evt.User
        Data := d } <;>
    simp [GRPCServer.AddEvent, GRPCServer.performOperation, GRPCServer.AddEvent.op,
      orEmptyObject, hnil, hdec, hst, addEventCalls_append, addEventCalls]

/-- An event without data against the test double: one store call, carrying the
empty document, and the id the store assigned. -/
theorem AddEvent_absent_data_witness :
    (stubRequest none).Data = none ∧
    stubServer.json.Unmarshal (some emptyObject) = .ok StubDoc.empty ∧
    (stubServer.AddEvent (stubRequest none) []).1 = .ok { Id := "id-1" } ∧
    (addEventCalls (stubServer.AddEvent (stubRequest none) []).2).length = 1 :=
  ⟨rfl, rfl,
    (AddEvent_absent_data stubServer (stubRequest none) StubDoc.empty [] rfl rfl).2,
    by rw [(AddEvent_absent_data stubServer (stubRequest none) StubDoc.empty [] rfl rfl).1]; rfl⟩

/-! ## GetEvents -/

theorem translate_isSome_of_encodes {J : Type} (s : GRPCServer J) (ev : Event J)
    (h : s.encodes ev = true) : (s.translate ev).isSome = true := by
  unfold GRPCServer.encodes at h
  unfold GRPCServer.translate
  cases hm : s.json.Marshal ev.Data <;> simp_all

theorem length_filterMap_translate {J : Type} (s : GRPCServer J) (evs : List (Event J)) :
    ((evs.takeWhile s.encodes).filterMap s.translate).length =
      (evs.takeWhile s.encodes).length := by
  induction evs with
  | nil => rfl
  | cons ev rest ih =>
    by_cases h : s.encodes ev = true
    · have hs := translate_isSome_of_encodes s ev h
      obtain ⟨msg, hmsg⟩ := Option.isSome_iff_exists.mp hs
      simp [List.takeWhile_cons, h, List.filterMap_cons, hmsg, ih]
    · simp [List.takeWhile_cons, h]

theorem GetEvents_loop_spec {J : Type} (s : GRPCServer J) (stream : Stream J PEvent)
    (name : String) (hsend : ∀ msg w, stream.Send msg w = (none, w ++ [.send msg]))
    (evs : List (Event J)) : ∀ w : World J,
    sentOf (GRPCServer.GetEvents.loop s stream name evs w).2 =
      sentOf w ++ (evs.takeWhile s.encodes).filterMap s.translate ∧
    ((GRPCServer.GetEvents.loop s stream name evs w).1 = none ↔
      evs.all s.encodes = true) := by
  induction evs with
  | nil =>
    intro w
    simp [GRPCServer.GetEvents.loop, sentOf_append, sentOf]
  | cons ev rest ih =>
    intro w
    unfold GRPCServer.GetEvents.loop
    cases hm : s.json.Marshal ev.Data with
    | error err =>
      have henc : s.encodes ev = false := by simp [GRPCServer.encodes, hm]
      simp [List.takeWhile_cons, henc, sentOf_append, sentOf]
    | ok d =>
      have henc : s.encodes ev = true := by simp [GRPCServer.encodes, hm]
      have htr : s.translate ev = some (s.toProto ev d) := by simp [GRPCServer.translate, hm]
      have := ih (w ++ [.send (s.toProto ev d)])
      simp [hsend, List.takeWhile_cons, henc, htr, List.filterMap_cons, this, sentOf_append,
        sentOf]

/-- C4. When the store's `Find` returns the events `evs` and every `Send`
delivers, the messages `GetEvents` puts on the stream are, in the order of
`evs` and one for each event, the translations of the longest initial run of
`evs` whose data `json.Marshal` accepts; if every event encodes, `GetEvents`
returns nil and has sent as many messages as there are events; otherwise it
returns an error, and nothing is sent for the first event that fails to encode
nor for any event after it. -/
theorem GetEvents_streams_in_store_order {J : Type} (s : GRPCServer J) (q : PQuery)
    (stream : Stream J PEvent) (evs : List (Event J)) (w : World J)
    (hfind : s.store.Find q = .ok evs)
    (hsend : ∀ msg w, stream.Send msg w = (none, w ++ [.send msg])) :
    sentOf (s.GetEvents q stream w).2 =
      sentOf w ++ (evs.takeWhile s.encodes).filterMap s.translate ∧
    ((evs.takeWhile s.encodes).filterMap s.translate).length =
      (evs.takeWhile s.encodes).length ∧
    (if evs.all s.encodes = true then
      (s.GetEvents q stream w).1 = none ∧
      (sentOf (s.GetEvents q stream w).2).length = (sentOf w).length + evs.length
    else (s.GetEvents q stream w).1 ≠ none) := by
  have hloop := GetEvents_loop_spec s stream "GetEvents" hsend evs (w ++ [.storeFind q])
  have hsent : sentOf (s.GetEvents q stream w).2 =
      sentOf w ++ (evs.takeWhile s.encodes).filterMap s.translate := by
    simp [GRPCServer.GetEvents, observeOnReturn, hfind, sentOf_append, hloop.1, sentOf]
  have herr : (s.GetEvents q stream w).1 =
      (GRPCServer.GetEvents.loop s stream "GetEvents" evs (w ++ [.storeFind q])).1 := by
    simp [GRPCServer.GetEvents, observeOnReturn, hfind]
  refine ⟨hsent, length_filterMap_translate s evs, ?_⟩
  by_cases hall : evs.all s.encodes = true
  · rw [if_pos hall]
    refine ⟨by rw [herr]; exact hloop.2.mpr hall, ?_⟩
    have htake : evs.takeWhile s.encodes = evs := by
      rw [List.takeWhile_eq_self_iff]
      intro ev hev
      exact (List.all_eq_true.mp hall) ev hev
    rw [hsent, List.length_append, length_filterMap_translate, htake]
  · rw [if_neg hall, herr]
    intro hnone
    exact hall (hloop.2.mp hnone)

/-- The test store answers with three events of which the third does not
encode: two messages go out, in store order, and `GetEvents` fails. -/
theorem GetEvents_streams_in_store_order_witness :
    (sentOf (stubServer.GetEvents ⟨[], [], [], 0, 0⟩ (recordingStream StubDoc) []).2).map
        (fun msg => msg.EventId) = ["e1", "e2"] ∧
    (stubServer.GetEvents ⟨[], [], [], 0, 0⟩ (recordingStream StubDoc) []).1 ≠ none := by
  have h := GetEvents_streams_in_store_order stubServer ⟨[], [], [], 0, 0⟩
    (recordingStream StubDoc)
    [stubEvent "e1" .empty, stubEvent "e2" .nil, stubEvent "e3" .channel] [] rfl
    (fun _ _ => rfl)
  refine ⟨?_, ?_⟩
  · rw [h.1]
    decide
  · have h3 := h.2.2
    rw [if_neg (by decide)] at h3
    exact h3

/-! ## Instrumentation of the handlers -/

theorem performOperation_metrics {J : Type} (s : GRPCServer J) (m : String)
    (op : World J → Except Error String × World J) (w : World J)
    (hop : metricsOf (op w).2 = metricsOf w) :
    metricsOf (s.performOperation m op w).2 =
      metricsOf w ++ [("inc", m, codeOf (s.performOperation m op w).1), ("observe", m, "")] := by
  unfold GRPCServer.performOperation
  rcases h : op w with ⟨r, w1⟩
  rw [h] at hop
  cases r <;> simp [metricsOf_append, metricsOf, codeOf, hop]

theorem GetEvents_loop_metrics {J : Type} (s : GRPCServer J) (stream : Stream J PEvent)
    (name : String) (hstream : ∀ msg w, metricsOf (stream.Send msg w).2 = metricsOf w)
    (evs : List (Event J)) : ∀ w : World J,
    metricsOf (GRPCServer.GetEvents.loop s stream name evs w).2 =
      metricsOf w ++
        [("inc", name, codeOfError (GRPCServer.GetEvents.loop s stream name evs w).1)] := by
  induction evs with
  | nil =>
    intro w
    simp [GRPCServer.GetEvents.loop, metricsOf_append, metricsOf, codeOfError]
  | cons ev rest ih =>
    intro w
    unfold GRPCServer.GetEvents.loop
    cases hm : s.json.Marshal ev.Data with
    | error err => simp [metricsOf_append, metricsOf, codeOfError]
    | ok d =>
      have hs := hstream (s.toProto ev d) w
      rcases hsend : stream.Send (s.toProto ev d) w with ⟨r, w1⟩
      rw [hsend] at hs
      cases r with
      | some err =>
        simp only [hsend]
        simp only [] at hs
        simp [metricsOf_append, metricsOf, codeOfError, hs]
      | none =>
        simp only [hsend]
        simp only [] at hs
        rw [ih w1, hs]

theorem GetTopics_loop_metrics {J : Type} (s : GRPCServer J) (name : String)
    (topics : List (Topic J)) : ∀ (acc : List PTopic) (w : World J),
    metricsOf (GRPCServer.GetTopics.loop s name topics acc w).2 =
      metricsOf w ++ [("inc", name, codeOf (GRPCServer.GetTopics.loop s name topics acc w).1)] := by
  induction topics with
  | nil =>
    intro acc w
    simp [GRPCServer.GetTopics.loop, metricsOf_append, metricsOf, codeOf]
  | cons t rest ih =>
    intro acc w
    unfold GRPCServer.GetTopics.loop
    by_cases hnil : s.json.IsNil t.Schema = true
    · simp [hnil, ih]
    · cases hm : s.json.Marshal t.Schema with
      | error err => simp [hnil, metricsOf_append, metricsOf, codeOf]
      | ok b => simp [hnil, ih]

theorem AddEvent_op_metrics {J : Type} (s : GRPCServer J) (evt : PEvent) (w : World J) :
    metricsOf (GRPCServer.AddEvent.op s evt w).2 = metricsOf w := by
  unfold GRPCServer.AddEvent.op
  cases s.json.Unmarshal (orEmptyObject evt.Data) <;> simp [metricsOf_append, metricsOf]

theorem AddTopic_op_metrics {J : Type} (s : GRPCServer J) (t : PTopic) (w : World J) :
    metricsOf (GRPCServer.AddTopic.op s t w).2 = metricsOf w := by
  unfold GRPCServer.AddTopic.op
  cases s.json.Unmarshal (orEmptyObject t.DataSchema) <;> simp [metricsOf_append, metricsOf]

theorem UpdateTopic_op_metrics {J : Type} (s : GRPCServer J) (t : UpdateTopicRequest)
    (w : World J) : metricsOf (GRPCServer.UpdateTopic.op s t w).2 = metricsOf w := by
  unfold GRPCServer.UpdateTopic.op
  cases s.json.Unmarshal t.DataSchema <;> simp [metricsOf_append, metricsOf]

/-- C8, as amended. Each of `AddEvent`, `GetEvents`, `AddTopic`, `UpdateTopic`,
`DeleteTopic`, `GetTopics`, `AddDC`, `UpdateDC` and `GetDCs` makes, on every
call, exactly two metric calls: one increment of the outcome counter labelled
with its own method name and `"0"` when it returns no error, `"1"` when it
returns an error, and one latency observation labelled with its own method
name. `GetEventByID` records exactly one latency observation labelled with its
own name, and when it returns an error its metric calls are one increment of
its failure counter and that observation. `Healthcheck` makes no metric call.
(The stream is assumed to make no metric call of its own.) -/
theorem handlers_record_own_metrics {J : Type} (s : GRPCServer J) (w : World J)
    (stream : Stream J PEvent)
    (hstream : ∀ msg w, metricsOf (stream.Send msg w).2 = metricsOf w) :
    (∀ evt, metricsOf (s.AddEvent evt w).2 = metricsOf w ++
      [("inc", "AddEvent", codeOf (s.AddEvent evt w).1), ("observe", "AddEvent", "")]) ∧
    (∀ q, metricsOf (s.GetEvents q stream w).2 = metricsOf w ++
      [("inc", "GetEvents", codeOfError (s.GetEvents q stream w).1),
        ("observe", "GetEvents", "")]) ∧
    (∀ t, metricsOf (s.AddTopic t w).2 = metricsOf w ++
      [("inc", "AddTopic", codeOf (s.AddTopic t w).1), ("observe", "AddTopic", "")]) ∧
    (∀ t, metricsOf (s.UpdateTopic t w).2 = metricsOf w ++
      [("inc", "UpdateTopic", codeOf (s.UpdateTopic t w).1), ("observe", "UpdateTopic", "")]) ∧
    (∀ t, metricsOf (s.DeleteTopic t w).2 = metricsOf w ++
      [("inc", "DeleteTopic", codeOf (s.DeleteTopic t w).1), ("observe", "DeleteTopic", "")]) ∧
    (metricsOf (s.GetTopics w).2 = metricsOf w ++
      [("inc", "GetTopics", codeOf (s.GetTopics w).1), ("observe", "GetTopics", "")]) ∧
    (∀ d, metricsOf (s.AddDC d w).2 = metricsOf w ++
      [("inc", "AddDC", codeOf (s.AddDC d w).1), ("observe", "AddDC", "")]) ∧
    (∀ t, metricsOf (s.UpdateDC t w).2 = metricsOf w ++
      [("inc", "UpdateDC", codeOf (s.UpdateDC t w).1), ("observe", "UpdateDC", "")]) ∧
    (metricsOf (s.GetDCs w).2 = metricsOf w ++
      [("inc", "GetDCs", codeOf (s.GetDCs w).1), ("observe", "GetDCs", "")]) ∧
    (∀ id, observations (s.GetEventByID id w).2 "GetEventByID" =
        observations w "GetEventByID" + 1 ∧
      (codeOf (s.GetEventByID id w).1 = "1" →
        metricsOf (s.GetEventByID id w).2 = metricsOf w ++
          [("inc", "GetEventByID", "1"), ("observe", "GetEventByID", "")])) ∧
    metricsOf (s.Healthcheck w).2 = metricsOf w := by
  refine ⟨?_, ?_, ?_, ?_, ?_, ?_, ?_, ?_, ?_, ?_, ?_⟩
  · intro evt
    exact performOperation_metrics s "AddEvent" _ w (AddEvent_op_metrics s evt w)
  · intro q
    unfold GRPCServer.GetEvents observeOnReturn
    cases hf : s.store.Find q with
    | error err => simp [metricsOf_append, metricsOf, codeOfError]
    | ok evs =>
      have := GetEvents_loop_metrics s stream "GetEvents" hstream evs (w ++ [.storeFind q])
      simp [metricsOf_append, metricsOf, this]
  · intro t
    exact performOperation_metrics s "AddTopic" _ w (AddTopic_op_metrics s t w)
  · intro t
    exact performOperation_metrics s "UpdateTopic" _ w (UpdateTopic_op_metrics s t w)
  · intro t
    unfold GRPCServer.DeleteTopic observeOnReturn
    cases hd : s.store.DeleteTopic t <;> simp [metricsOf_append, metricsOf, codeOf]
  · unfold GRPCServer.GetTopics observeOnReturn
    cases hg : s.store.GetTopics with
    | error err => simp [metricsOf_append, metricsOf, codeOf]
    | ok topics =>
      have := GetTopics_loop_metrics s "GetTopics" topics [] (w ++ [.storeGetTopics])
      simp [metricsOf_append, metricsOf, this]
  · intro d
    exact performOperation_metrics s "AddDC" _ w (by simp [metricsOf_append, metricsOf])
  · intro t
    exact performOperation_metrics s "UpdateDC" _ w (by simp [metricsOf_append, metricsOf])
  · unfold GRPCServer.GetDCs observeOnReturn
    cases hg : s.store.GetDCs <;> simp [metricsOf_append, metricsOf, codeOf]
  · intro id
    unfold GRPCServer.GetEventByID observeOnReturn
    cases hf : s.store.FindByID id with
    | error err => simp [metricsOf_append, metricsOf, codeOf, observations, List.filter_append]
    | ok ev =>
      cases hm : s.json.Marshal ev.Data <;>
        simp [hm, metricsOf_append, metricsOf, codeOf, observations, List.filter_append]
  · rfl

/-- The handlers of the server over the test double, with a stream that
delivers: `UpdateDC`, which the test store rejects, counts one failure. -/
theorem handlers_record_own_metrics_witness :
    (∀ msg w, metricsOf ((recordingStream StubDoc).Send msg w).2 = metricsOf w) ∧
    metricsOf (stubServer.UpdateDC ⟨"a", "b"⟩ []).2 =
      [("inc", "UpdateDC", "1"), ("observe", "UpdateDC", "")] ∧
    metricsOf (stubServer.GetTopics []).2 =
      [("inc", "GetTopics", "0"), ("observe", "GetTopics", "")] :=
  have hs : ∀ (msg : PEvent) (w : World StubDoc),
      metricsOf ((recordingStream StubDoc).Send msg w).2 = metricsOf w := by
    intro msg w
    simp [recordingStream, metricsOf_append, metricsOf]
  ⟨hs,
    (handlers_record_own_metrics stubServer [] (recordingStream StubDoc) hs).2.2.2.2.2.2.2.1
      ⟨"a", "b"⟩,
    (handlers_record_own_metrics stubServer [] (recordingStream StubDoc) hs).2.2.2.2.2.1⟩

/-- C8, as stated, fails. `Healthcheck` returns without error and makes no
metric call at all; `GetEventIDs` records its latency under the label
`GetEventByIDs`, none under its own name, and increments no counter;
`GetEventByID`, when it succeeds, increments no counter. -/
theorem handlers_without_own_metrics :
    (stubServer.Healthcheck []).1 = .ok { Response := "OK" } ∧
    observations (stubServer.Healthcheck []).2 "Healthcheck" = 0 ∧
    metricsOf (stubServer.Healthcheck []).2 = [] ∧
    (stubServer.GetEventIDs ⟨0, 0⟩ (recordingIDStream StubDoc) []).1 = none ∧
    metricsOf (stubServer.GetEventIDs ⟨0, 0⟩ (recordingIDStream StubDoc) []).2 =
      [("observe", "GetEventByIDs", "")] ∧
    codeOf (stubServer.GetEventByID "e1" []).1 = "0" ∧
    metricsOf (stubServer.GetEventByID "e1" []).2 = [("observe", "GetEventByID", "")] :=
  ⟨rfl, by decide, by decide, rfl, by decide, by decide, by decide⟩

/-! ## Topics -/

theorem AddTopic_absent_schema {J : Type} (s : GRPCServer J) (t : PTopic) (d : J)
    (w : World J) (hnil : t.DataSchema = none)
    (hdec : s.json.Unmarshal (some emptyObject) = .ok d) :
    topicCalls (s.AddTopic t w).2 =
      topicCalls w ++ [("", { ID := "", Name := t.TopicName, Schema := d })] := by
  cases hst : s.store.AddTopic { ID := "", Name := t.TopicName, Schema := d } <;>
    simp [GRPCServer.AddTopic, GRPCServer.performOperation, GRPCServer.AddTopic.op,
      orEmptyObject, hnil, hdec, hst, topicCalls_append, topicCalls]

/-- C9 at the failing input. `UpdateTopic` hands the schema bytes to
`json.Unmarshal` as they are; when they are absent and `json.Unmarshal` rejects
the nil slice with `e`, `UpdateTopic` returns the decode error, wrapped, and the
store's `UpdateTopic` is not invoked. -/
theorem UpdateTopic_absent_schema_fails {J : Type} (s : GRPCServer J)
    (t : UpdateTopicRequest) (e : Error) (w : World J) (hnil : t.DataSchema = none)
    (hbad : s.json.Unmarshal none = .error e) :
    (s.UpdateTopic t w).1 =
      .error (.wrap (.wrap e "json unmarshal of data schema") "operation UpdateTopic") ∧
    (s.UpdateTopic t w).2 = w ++ [.inc "UpdateTopic" "1",
      .println ["Error performing operation", "UpdateTopic",
        (Error.wrap e "json unmarshal of data schema").text],
      .observe "UpdateTopic"] := by
  simp [GRPCServer.UpdateTopic, GRPCServer.performOperation, GRPCServer.UpdateTopic.op, hnil,
    hbad]

/-- The request that renames `a` to `b` without a schema, against the test
double: a decode error and no store call. -/
theorem UpdateTopic_absent_schema_fails_witness :
    (⟨"a", "b", none⟩ : UpdateTopicRequest).DataSchema = none ∧
    stubServer.json.Unmarshal none = .error (.base "unexpected end of JSON input") ∧
    (stubServer.UpdateTopic ⟨"a", "b", none⟩ []).1 =
      .error (.wrap (.wrap (.base "unexpected end of JSON input")
        "json unmarshal of data schema") "operation UpdateTopic") ∧
    topicCalls (stubServer.UpdateTopic ⟨"a", "b", none⟩ []).2 = [] :=
  ⟨rfl, rfl,
    (UpdateTopic_absent_schema_fails stubServer ⟨"a", "b", none⟩
      (.base "unexpected end of JSON input") [] rfl rfl).1,
    by rw [(UpdateTopic_absent_schema_fails stubServer ⟨"a", "b", none⟩
      (.base "unexpected end of JSON input") [] rfl rfl).2]; rfl⟩

end Eventmaster

namespace UI

open Eventmaster (Error)

/-! ## Reading the form -/

theorem Outcome.returned_bind {α β : Type} (a : α) (f : α → Outcome β) :
    (Outcome.returned a >>= f) = f a := rfl

theorem Outcome.panicked_bind {α β : Type} (msg : String) (f : α → Outcome β) :
    (Outcome.panicked msg >>= f) = Outcome.panicked msg := rfl

theorem index_zero_of_head {xs : List String} {x : String} (h : xs.head? = some x) :
    index xs 0 = .returned x := by
  cases xs with
  | nil => simp at h
  | cons y ys =>
    simp at h
    simp [index, h]

theorem index_zero_of_ne_nil {xs : List String} (h : xs ≠ []) :
    ∃ x, xs.head? = some x ∧ index xs 0 = .returned x := by
  cases xs with
  | nil => exact absurd rfl h
  | cons y ys => exact ⟨y, rfl, by simp [index]⟩

theorem index_zero_nil : index [] 0 =
    .panicked "runtime error: index out of range [0] with length 0" := by
  rfl

/-! ## The query page -/

theorem bound_of_parses (geh : getEventHandler) (v : String)
    (h : v = "" ∨ (geh.rt.timeParse "2006-01-02" v).2 = none) :
    geh.bound v = .ok (if v = "" then -1 else (geh.rt.timeParse "2006-01-02" v).1.Unix) := by
  unfold getEventHandler.bound
  by_cases hv : v = ""
  · simp [hv]
  · rcases h with h | h
    · exact absurd h hv
    · rcases hp : geh.rt.timeParse "2006-01-02" v with ⟨t, err⟩
      rw [hp] at h
      simp only at h
      subst h
      simp [hv]

theorem bound_of_fails (geh : getEventHandler) (v : String) (e : Error)
    (hv : v ≠ "") (h : (geh.rt.timeParse "2006-01-02" v).2 = some e) :
    geh.bound v = .error e := by
  unfold getEventHandler.bound
  rcases hp : geh.rt.timeParse "2006-01-02" v with ⟨t, err⟩
  rw [hp] at h
  simp only at h
  subst h
  simp [hv]

/-- C7, as amended. For a form that carries `startDate`, `endDate`, `dc`, `host`
and `topic` (first values `sd`, `ed`, `dc`, `host`, `topic`): if the form
parsed and each date is empty or parses, `buildQuery` returns the query with
`Dc`, `Host`, `TopicName` copied from the form, `TimeStart` equal to -1 for an
empty `startDate` and otherwise to the Unix time of
`time.Parse("2006-01-02", sd)`, and `TimeEnd` likewise from `endDate`; if the
form parsed and a non-empty date fails to parse with `e`, `buildQuery` returns
the error `e`; and, whether or not the form parsed, if a non-empty `startDate`
or `endDate` fails to parse then `buildQuery` returns an error and no query, and
`ServeHTTP` answers with an error (status 500) and does not invoke the store's
`Find`. -/
theorem buildQuery_of_form (geh : getEventHandler) (r : Request)
    (sd ed dc host topic : String)
    (hsd : (r.Form.lookup "startDate").head? = some sd)
    (hed : (r.Form.lookup "endDate").head? = some ed)
    (hdc : (r.Form.lookup "dc").head? = some dc)
    (hhost : (r.Form.lookup "host").head? = some host)
    (htopic : (r.Form.lookup "topic").head? = some topic) :
    (r.ParseForm = none →
      (sd = "" ∨ (geh.rt.timeParse "2006-01-02" sd).2 = none) →
      (ed = "" ∨ (geh.rt.timeParse "2006-01-02" ed).2 = none) →
      geh.buildQuery r = .returned (.ok
        { Dc := dc
          Host := host
          TopicName := topic
          TimeStart := if sd = "" then -1 else (geh.rt.timeParse "2006-01-02" sd).1.Unix
          TimeEnd := if ed = "" then -1 else (geh.rt.timeParse "2006-01-02" ed).1.Unix })) ∧
    (r.ParseForm = none → ∀ e,
      (sd ≠ "" ∧ (geh.rt.timeParse "2006-01-02" sd).2 = some e) ∨
      ((sd = "" ∨ (geh.rt.timeParse "2006-01-02" sd).2 = none) ∧
        ed ≠ "" ∧ (geh.rt.timeParse "2006-01-02" ed).2 = some e) →
      geh.buildQuery r = .returned (.error e) ∧
      geh.ServeHTTP r =
        { calls := [.httpError ("couldn't build query from form: " ++ e.text) 500],
          panic := none } ∧
      (geh.ServeHTTP r).findCalls = []) ∧
    ((sd ≠ "" ∧ (geh.rt.timeParse "2006-01-02" sd).2 ≠ none) ∨
      (ed ≠ "" ∧ (geh.rt.timeParse "2006-01-02" ed).2 ≠ none) →
      ∃ e, geh.buildQuery r = .returned (.error e) ∧
        geh.ServeHTTP r =
          { calls := [.httpError ("couldn't build query from form: " ++ e.text) 500],
            panic := none } ∧
        (geh.ServeHTTP r).findCalls = []) := by
  have i1 := index_zero_of_head hsd
  have i2 := index_zero_of_head hed
  have i3 := index_zero_of_head hdc
  have i4 := index_zero_of_head hhost
  have i5 := index_zero_of_head htopic
  have served : ∀ e, geh.buildQuery r = .returned (.error e) →
      geh.ServeHTTP r =
        { calls := [.httpError ("couldn't build query from form: " ++ e.text) 500],
          panic := none } ∧
      (geh.ServeHTTP r).findCalls = [] := by
    intro e hb
    have hs : geh.ServeHTTP r =
        { calls := [.httpError ("couldn't build query from form: " ++ e.text) 500],
          panic := none } := by
      simp [getEventHandler.ServeHTTP, hb]
    exact ⟨hs, by rw [hs]; rfl⟩
  have precise : r.ParseForm = none → ∀ e,
      (sd ≠ "" ∧ (geh.rt.timeParse "2006-01-02" sd).2 = some e) ∨
      ((sd = "" ∨ (geh.rt.timeParse "2006-01-02" sd).2 = none) ∧
        ed ≠ "" ∧ (geh.rt.timeParse "2006-01-02" ed).2 = some e) →
      geh.buildQuery r = .returned (.error e) := by
    intro hparse e h
    rcases h with ⟨hne, hf⟩ | ⟨hok, hne, hf⟩
    · simp [getEventHandler.buildQuery, hparse, i1, Outcome.returned_bind,
        bound_of_fails geh sd e hne hf]
      rfl
    · simp [getEventHandler.buildQuery, hparse, i1, i2, Outcome.returned_bind,
        bound_of_parses geh sd hok, bound_of_fails geh ed e hne hf]
      rfl
  refine ⟨?_, ?_, ?_⟩
  · intro hparse h1 h2
    simp [getEventHandler.buildQuery, hparse, i1, i2, i3, i4, i5, Outcome.returned_bind,
      bound_of_parses geh sd h1, bound_of_parses geh ed h2]
    rfl
  · intro hparse e h
    have hb := precise hparse e h
    exact ⟨hb, served e hb⟩
  · intro h
    cases hparse : r.ParseForm with
    | some err =>
      have hb : geh.buildQuery r = .returned (.error err) := by
        simp [getEventHandler.buildQuery, hparse]
      exact ⟨err, hb, served err hb⟩
    | none =>
      by_cases hstart : sd ≠ "" ∧ (geh.rt.timeParse "2006-01-02" sd).2 ≠ none
      · obtain ⟨hne, hf⟩ := hstart
        obtain ⟨e, he⟩ := Option.ne_none_iff_exists'.mp hf
        have hb := precise hparse e (Or.inl ⟨hne, he⟩)
        exact ⟨e, hb, served e hb⟩
      · have hok : sd = "" ∨ (geh.rt.timeParse "2006-01-02" sd).2 = none := by
          by_cases hv : sd = ""
          · exact Or.inl hv
          · right
            by_contra hc
            exact hstart ⟨hv, hc⟩
        rcases h with h | ⟨hne, hf⟩
        · exact absurd h hstart
        · obtain ⟨e, he⟩ := Option.ne_none_iff_exists'.mp hf
          have hb := precise hparse e (Or.inr ⟨hok, hne, he⟩)
          exact ⟨e, hb, served e hb⟩

/-- A query form that parsed, with a start date and no end date, against the
stand-in parser: the start bound is midnight UTC of 2023-01-01, the end bound
is -1. -/
theorem buildQuery_of_form_witness :
    getEventHandler.buildQuery ⟨stubStore, stubRuntime⟩
      ⟨none, [("dc", ["sjc"]), ("host", ["h1"]), ("topic", ["deploys"]),
        ("startDate", ["2023-01-01"]), ("endDate", [""])]⟩ =
      .returned (.ok
        { Dc := "sjc", Host := "h1", TopicName := "deploys"
          TimeStart := 1672531200, TimeEnd := -1 }) :=
  (buildQuery_of_form ⟨stubStore, stubRuntime⟩
    ⟨none, [("dc", ["sjc"]), ("host", ["h1"]), ("topic", ["deploys"]),
      ("startDate", ["2023-01-01"]), ("endDate", [""])]⟩
    "2023-01-01" "" "sjc" "h1" "deploys" rfl rfl rfl rfl rfl).1
    rfl (Or.inr rfl) (Or.inl rfl)

/-- C7, as stated, fails. A query form that carries `dc`, `host`, `topic` and
empty `startDate` and `endDate`, but whose `ParseForm` returned an error:
`buildQuery` returns that error and no query, where the claim has it return the
query with both bounds at -1. -/
theorem buildQuery_unparsed_form_returns_error :
    Values.lookup [("dc", ["sjc"]), ("host", ["h1"]), ("topic", ["deploys"]),
      ("startDate", [""]), ("endDate", [""])] "startDate" = [""] ∧
    Values.lookup [("dc", ["sjc"]), ("host", ["h1"]), ("topic", ["deploys"]),
      ("startDate", [""]), ("endDate", [""])] "endDate" = [""] ∧
    getEventHandler.buildQuery ⟨stubStore, stubRuntime⟩
      ⟨some (.base "invalid semicolon separator in query"),
        [("dc", ["sjc"]), ("host", ["h1"]), ("topic", ["deploys"]),
          ("startDate", [""]), ("endDate", [""])]⟩ =
      .returned (.error (.base "invalid semicolon separator in query")) ∧
    getEventHandler.ServeHTTP ⟨stubStore, stubRuntime⟩
      ⟨some (.base "invalid semicolon separator in query"),
        [("dc", ["sjc"]), ("host", ["h1"]), ("topic", ["deploys"]),
          ("startDate", [""]), ("endDate", [""])]⟩ =
      { calls := [.httpError
          "couldn't build query from form: invalid semicolon separator in query" 500],
        panic := none } :=
  ⟨by decide, by decide, rfl, by decide⟩

/-- C10 at the failing input. A query request whose form parsed but carries no
`startDate`: the first lookup of `buildQuery` indexes an empty slice, so
`buildQuery` panics instead of returning a query or an error, and `ServeHTTP`
writes no response. -/
theorem buildQuery_panics_on_missing_field :
    getEventHandler.buildQuery ⟨stubStore, stubRuntime⟩
      ⟨none, [("dc", ["sjc"]), ("host", ["h1"]), ("topic", ["deploys"]), ("endDate", [""])]⟩ =
      .panicked "runtime error: index out of range [0] with length 0" ∧
    getEventHandler.ServeHTTP ⟨stubStore, stubRuntime⟩
      ⟨none, [("dc", ["sjc"]), ("host", ["h1"]), ("topic", ["deploys"]), ("endDate", [""])]⟩ =
      { calls := [], panic := some "runtime error: index out of range [0] with length 0" } :=
  ⟨rfl, rfl⟩

/-! ## The create handler -/

theorem readFields_of_present (r : Request)
    (hfields : ∀ key ∈ createEventHandler.keys, r.Form.lookup key ≠ []) :
    ∃ f, createEventHandler.readFields r = .returned f ∧
      (r.Form.lookup "date").head? = some f.date ∧
      (r.Form.lookup "time").head? = some f.timeOfDay := by
  obtain ⟨topic, -, h1⟩ := index_zero_of_ne_nil (hfields "topic" (by decide))
  obtain ⟨dc, -, h2⟩ := index_zero_of_ne_nil (hfields "dc" (by decide))
  obtain ⟨tags, -, h3⟩ := index_zero_of_ne_nil (hfields "tags" (by decide))
  obtain ⟨host, -, h4⟩ := index_zero_of_ne_nil (hfields "host" (by decide))
  obtain ⟨user, -, h5⟩ := index_zero_of_ne_nil (hfields "user" (by decide))
  obtain ⟨data, -, h6⟩ := index_zero_of_ne_nil (hfields "data" (by decide))
  obtain ⟨date, hd, h7⟩ := index_zero_of_ne_nil (hfields "date" (by decide))
  obtain ⟨timeOfDay, ht, h8⟩ := index_zero_of_ne_nil (hfields "time" (by decide))
  refine ⟨{ topic, dc, tags, host, user, data, date, timeOfDay }, ?_, hd, ht⟩
  simp [createEventHandler.readFields, h1, h2, h3, h4, h5, h6, h7, h8, Outcome.returned_bind]
  rfl

theorem index_zero_returned {xs : List String} {x : String}
    (h : index xs 0 = .returned x) : xs.head? = some x := by
  cases xs with
  | nil => simp [index] at h
  | cons y ys =>
    simp [index] at h
    simp [h]

theorem readFields_returned (r : Request) (f : createEventHandler.Fields)
    (h : createEventHandler.readFields r = .returned f) :
    (r.Form.lookup "date").head? = some f.date ∧
    (r.Form.lookup "time").head? = some f.timeOfDay := by
  unfold createEventHandler.readFields at h
  cases h1 : index (r.Form.lookup "topic") 0 with
  | panicked m => simp [h1, Outcome.panicked_bind] at h
  | returned topic =>
  cases h2 : index (r.Form.lookup "dc") 0 with
  | panicked m => simp [h1, h2, Outcome.panicked_bind, Outcome.returned_bind] at h
  | returned dc =>
  cases h3 : index (r.Form.lookup "tags") 0 with
  | panicked m => simp [h1, h2, h3, Outcome.panicked_bind, Outcome.returned_bind] at h
  | returned tags =>
  cases h4 : index (r.Form.lookup "host") 0 with
  | panicked m => simp [h1, h2, h3, h4, Outcome.panicked_bind, Outcome.returned_bind] at h
  | returned host =>
  cases h5 : index (r.Form.lookup "user") 0 with
  | panicked m =>
    simp [h1, h2, h3, h4, h5, Outcome.panicked_bind, Outcome.returned_bind] at h
  | returned user =>
  cases h6 : index (r.Form.lookup "data") 0 with
  | panicked m =>
    simp [h1, h2, h3, h4, h5, h6, Outcome.panicked_bind, Outcome.returned_bind] at h
  | returned data =>
  cases h7 : index (r.Form.lookup "date") 0 with
  | panicked m =>
    simp [h1, h2, h3, h4, h5, h6, h7, Outcome.panicked_bind, Outcome.returned_bind] at h
  | returned date =>
  cases h8 : index (r.Form.lookup "time") 0 with
  | panicked m =>
    simp [h1, h2, h3, h4, h5, h6, h7, h8, Outcome.panicked_bind, Outcome.returned_bind] at h
  | returned timeOfDay =>
    simp only [h1, h2, h3, h4, h5, h6, h7, h8, Outcome.returned_bind] at h
    have hf : f = { topic, dc, tags, host, user, data, date, timeOfDay } :=
      (Outcome.returned.inj h).symm
    subst hf
    exact ⟨index_zero_returned h7, index_zero_returned h8⟩

/-- C5, as amended. For every create request in which the first value of `date`
or of `time` is the empty string, `ServeHTTP` issues no redirect and does not
invoke the store's `AddEvent`; and if moreover the form parsed and carries all
of `topic`, `dc`, `tags`, `host`, `user`, `data`, `date` and `time`, `ServeHTTP`
makes exactly one call, an `http.Error` with status 400. -/
theorem create_rejects_empty_date_or_time (ceh : createEventHandler) (r : Request)
    (hempty : (r.Form.lookup "date").head? = some "" ∨
      (r.Form.lookup "time").head? = some "") :
    (ceh.ServeHTTP r).redirected = false ∧
    (ceh.ServeHTTP r).addEventCalls = [] ∧
    (r.ParseForm = none →
      (∀ key ∈ createEventHandler.keys, r.Form.lookup key ≠ []) →
      (∃ body, ceh.ServeHTTP r = { calls := [.httpError body 400], panic := none }) ∧
      (ceh.ServeHTTP r).hasStatus 400 = true) := by
  have hcases : ∀ f, r.ParseForm = none → createEventHandler.readFields r = .returned f →
      ceh.ServeHTTP r = { calls := [.httpError "date cannot be empty" 400], panic := none } ∨
      ceh.ServeHTTP r = { calls := [.httpError "time cannot be empty" 400], panic := none } := by
    intro f hparse hf
    obtain ⟨hd, ht⟩ := readFields_returned r f hf
    by_cases hdate : f.date = ""
    · left
      simp [createEventHandler.ServeHTTP, hparse, hf, hdate]
    · right
      have htime : f.timeOfDay = "" := by
        rcases hempty with h | h
        · rw [hd] at h
          exact absurd (Option.some.inj h) hdate
        · rw [ht] at h
          exact Option.some.inj h
      simp [createEventHandler.ServeHTTP, hparse, hf, hdate, htime]
  have hquiet : (ceh.ServeHTTP r).redirected = false ∧ (ceh.ServeHTTP r).addEventCalls = [] := by
    cases hparse : r.ParseForm with
    | some err =>
      have hs : ceh.ServeHTTP r =
          { calls := [.httpError ("error parsing form: " ++ err.text) 500], panic := none } := by
        simp [createEventHandler.ServeHTTP, hparse]
      rw [hs]
      exact ⟨rfl, rfl⟩
    | none =>
      cases hf : createEventHandler.readFields r with
      | panicked msg =>
        have hs : ceh.ServeHTTP r = { calls := [], panic := some msg } := by
          simp [createEventHandler.ServeHTTP, hparse, hf]
        rw [hs]
        exact ⟨rfl, rfl⟩
      | returned f =>
        rcases hcases f hparse hf with h | h <;> rw [h] <;> exact ⟨rfl, rfl⟩
  refine ⟨hquiet.1, hquiet.2, ?_⟩
  intro hparse hfields
  obtain ⟨f, hf, -, -⟩ := readFields_of_present r hfields
  rcases hcases f hparse hf with h | h <;> rw [h] <;> exact ⟨⟨_, rfl⟩, rfl⟩

/-- A create request with every field present and an empty `date`, against the
test double: one 400 response, no redirect and no store write. -/
theorem create_rejects_empty_date_or_time_witness :
    (createEventHandler.ServeHTTP ⟨stubStore, stubRuntime⟩
      ⟨none, [("topic", ["deploys"]), ("dc", ["sjc"]), ("tags", ["a,b"]), ("host", ["h1"]),
        ("user", ["me"]), ("data", [""]), ("date", [""]), ("time", ["12:30"])]⟩).redirected =
      false ∧
    (createEventHandler.ServeHTTP ⟨stubStore, stubRuntime⟩
      ⟨none, [("topic", ["deploys"]), ("dc", ["sjc"]), ("tags", ["a,b"]), ("host", ["h1"]),
        ("user", ["me"]), ("data", [""]), ("date", [""]), ("time", ["12:30"])]⟩).addEventCalls =
      [] ∧
    (createEventHandler.ServeHTTP ⟨stubStore, stubRuntime⟩
      ⟨none, [("topic", ["deploys"]), ("dc", ["sjc"]), ("tags", ["a,b"]), ("host", ["h1"]),
        ("user", ["me"]), ("data", [""]), ("date", [""]), ("time", ["12:30"])]⟩).hasStatus
      400 = true :=
  have h := create_rejects_empty_date_or_time ⟨stubStore, stubRuntime⟩
    ⟨none, [("topic", ["deploys"]), ("dc", ["sjc"]), ("tags", ["a,b"]), ("host", ["h1"]),
      ("user", ["me"]), ("data", [""]), ("date", [""]), ("time", ["12:30"])]⟩
    (Or.inl rfl)
  ⟨h.1, h.2.1, (h.2.2 rfl (by decide)).2⟩

/-- C5, as stated, fails. A create request whose `date` is the empty string but
whose form did not parse is answered with status 500, not 400; one whose form
parsed but carries only `date` and `time` panics at the first lookup and is not
answered at all. -/
theorem create_empty_date_not_always_400 :
    Values.lookup [("topic", ["deploys"]), ("dc", ["sjc"]), ("tags", [""]), ("host", ["h1"]),
      ("user", ["me"]), ("data", [""]), ("date", [""]), ("time", ["12:30"])] "date" = [""] ∧
    createEventHandler.ServeHTTP ⟨stubStore, stubRuntime⟩
      ⟨some (.base "invalid semicolon separator in query"),
        [("topic", ["deploys"]), ("dc", ["sjc"]), ("tags", [""]), ("host", ["h1"]),
          ("user", ["me"]), ("data", [""]), ("date", [""]), ("time", ["12:30"])]⟩ =
      { calls := [.httpError "error parsing form: invalid semicolon separator in query" 500],
        panic := none } ∧
    Values.lookup [("date", [""]), ("time", [""])] "date" = [""] ∧
    createEventHandler.ServeHTTP ⟨stubStore, stubRuntime⟩
      ⟨none, [("date", [""]), ("time", [""])]⟩ =
      { calls := [], panic := some "runtime error: index out of range [0] with length 0" } := by
  decide

/-- C6 at the failing inputs. A create request whose time of day does not
parse: `ServeHTTP` writes the 500 error and then still hands an event stamped
with the zero time to the store and issues the redirect. A create request the
store rejects: `ServeHTTP` writes the 500 error and then still issues the
redirect. -/
theorem create_redirects_after_failure :
    createEventHandler.ServeHTTP ⟨stubStore, stubRuntime⟩
      ⟨none, [("topic", ["deploys"]), ("dc", ["sjc"]), ("tags", ["a,b"]), ("host", ["h1"]),
        ("user", ["me"]), ("data", ["x"]), ("date", ["2017-06-01"]), ("time", ["noon"])]⟩ =
      { calls := [.httpError "invalid date entered: parsing time: cannot parse" 500,
          .storeAddEvent
            { Timestamp := -62135596800, Dc := "sjc", TopicName := "deploys"
              Tags := ["a", "b"], Host := "h1", User := "me", Data := "x" },
          .redirect "/" 301],
        panic := none } ∧
    createEventHandler.ServeHTTP ⟨failingStore, stubRuntime⟩
      ⟨none, [("topic", ["deploys"]), ("dc", ["sjc"]), ("tags", [""]), ("host", ["h1"]),
        ("user", ["me"]), ("data", ["x"]), ("date", ["2017-06-01"]), ("time", ["12:30"])]⟩ =
      { calls := [.storeAddEvent
            { Timestamp := 1496320200, Dc := "sjc", TopicName := "deploys"
              Tags := [], Host := "h1", User := "me", Data := "x" },
          .httpError "error writing event to cassandra: cassandra unavailable" 500,
          .redirect "/" 301],
        panic := none } := by
  decide

end UI
